import Mathlib

/-!
Shallow embedding of `src/repo_miner.py` (github-csv): the two fetch
operations `fetch_commits` and `fetch_issues`, their normalization of
GitHub API objects into tabular records, and the DataFrame construction
from a list of records.

Conventions of the embedding:
  * Python dicts built per record become `Row := List (String × FieldVal)`,
    keeping key insertion order.
  * `pd.DataFrame(records)` becomes `pdDataFrame`, which derives the column
    list from the keys actually present in the records (so an empty record
    list yields an empty column list, as pandas does).
  * `datetime` values are modelled as `Int` seconds since the epoch;
    Python's `timedelta.days` is floor division of the difference by 86400,
    i.e. `Int.fdiv`.
  * Exceptions become `Except PyError`: the collaborator's response is an
    `Except PyError` value, and a per-record attribute access on `None`
    (a commit with no author) aborts the whole fetch with an error.
  * The `issues` / `commits` arguments of the fetch functions stand for the
    value of `repo.get_issues(state=state)` / `repo.get_commits()`, i.e. the
    collaborator's response sequence in its native order.
-/

set_option autoImplicit false
set_option linter.unusedVariables false

/-- The structured user object attached to an issue by the API client
(`issue.user`); its `login` is the author's login identifier. -/
structure UserObj where
  login : String
deriving DecidableEq

/-- The git author block of a commit (`commit.commit.author`). -/
structure GitAuthor where
  name : String
  email : String
  date : Int
deriving DecidableEq

/-- The inner commit object (`commit.commit`); a malformed record can have
no author, modelled as `Option.none`. -/
structure CommitCommit where
  author : Option GitAuthor
  message : String
deriving DecidableEq

/-- A commit object as returned by the collaborator (`repo.get_commits()`). -/
structure Commit where
  sha : String
  commit : CommitCommit
deriving DecidableEq

/-- An issue entry as returned by the collaborator (`repo.get_issues(...)`).
`pull_request` is the truthiness of the entry's pull-request attribute,
which the code tests with `if not issue.pull_request`. -/
structure Issue where
  id : Int
  number : Int
  title : String
  user : UserObj
  state : String
  created_at : Int
  closed_at : Option Int
  comments : Int
  pull_request : Bool
deriving DecidableEq

/-- A value stored in a record field: Python strings, ints, datetimes,
the structured user object, or `None`. -/
inductive FieldVal where
  | str (s : String)
  | int (n : Int)
  | time (t : Int)
  | user (u : UserObj)
  | none
deriving DecidableEq

/-- Whether a field value is a Python string. -/
def FieldVal.isStr : FieldVal → Bool
  | FieldVal.str _ => true
  | _ => false

/-- One record dict, keys in insertion order. -/
abbrev Row := List (String × FieldVal)

/-- A pandas DataFrame: an ordered column list and the record rows. -/
structure Table where
  columns : List String
  rows : List Row
deriving DecidableEq

/-- Error kinds raised by the collaborator or by attribute access on `None`. -/
inductive PyError where
  | authenticationError
  | notFoundError
  | transportError
  | attributeError (attr : String)
deriving DecidableEq

/-- Append a key to the column list if it is not already present. -/
def insertCol (cols : List String) (k : String) : List String :=
  if k ∈ cols then cols else cols ++ [k]

/-- Accumulate the keys of one record into the column list. -/
def rowCols (cols : List String) (r : Row) : List String :=
  r.foldl (fun acc kv => insertCol acc kv.1) cols

/-- Column inference of `pd.DataFrame` over a list of dicts: the union of
keys in order of first appearance; empty input gives no columns. -/
def deriveCols (rows : List Row) : List String :=
  rows.foldl rowCols []

/-- Build a DataFrame from a list of record dicts (`pd.DataFrame(records)`). -/
def pdDataFrame (rows : List Row) : Table :=
  { columns := deriveCols rows, rows := rows }

/-- Python `message.split("\n", 1)[0]`: the characters strictly before the
first line-break, the whole string when there is none. -/
def firstLine (s : String) : String :=
  String.mk (s.data.takeWhile (fun ch => ch != '\n'))

/-- Normalization of one commit (loop body of `fetch_commits`, lines 41-49):
`commit.commit.author.name` raises when the author is `None`. -/
def normCommit (c : Commit) : Except PyError Row :=
  match c.commit.author with
  | Option.none => Except.error (PyError.attributeError "name")
  | Option.some a => Except.ok
      [("sha", FieldVal.str c.sha),
       ("author", FieldVal.str a.name),
       ("email", FieldVal.str a.email),
       ("date", FieldVal.time a.date),
       ("message", FieldVal.str (firstLine c.commit.message))]

/-- The commit loop: records accumulate in order, and the first raising
record aborts the whole fetch. -/
def commitRows : List Commit → Except PyError (List Row)
  | [] => Except.ok []
  | c :: cs =>
    match normCommit c with
    | Except.error e => Except.error e
    | Except.ok r =>
      match commitRows cs with
      | Except.error e => Except.error e
      | Except.ok rs => Except.ok (r :: rs)

/-- Slicing `commits[:max_commits]` when a cap is given (lines 36-37); with
no cap the whole sequence is kept. -/
def takeCap (cap : Option Nat) (cs : List Commit) : List Commit :=
  match cap with
  | Option.none => cs
  | Option.some n => cs.take n

/-- The function `fetch_commits` of `repo_miner.py`, applied to the
collaborator's commit sequence. -/
def fetchCommits (commits : List Commit) (max_commits : Option Nat) :
    Except PyError Table :=
  match commitRows (takeCap max_commits commits) with
  | Except.error e => Except.error e
  | Except.ok rs => Except.ok (pdDataFrame rs)

/-- Python `(closed_at - created_at).days`: `timedelta.days` is the floor
of the difference in seconds divided by 86400. -/
def daysBetween (created closed : Int) : Int :=
  Int.fdiv (closed - created) 86400

/-- Normalization of one issue (loop body of `fetch_issues`, lines 80-94).
Note the `user` field stores the structured `issue.user` object itself. -/
def normIssue (i : Issue) : Row :=
  [("id", FieldVal.int i.id),
   ("number", FieldVal.int i.number),
   ("title", FieldVal.str i.title),
   ("user", FieldVal.user i.user),
   ("state", FieldVal.str i.state),
   ("created_at", FieldVal.time i.created_at),
   ("closed_at",
      match i.closed_at with
      | Option.some t => FieldVal.time t
      | Option.none => FieldVal.none),
   ("comments", FieldVal.int i.comments),
   ("open_duration_days",
      match i.closed_at with
      | Option.some t => FieldVal.int (daysBetween i.created_at t)
      | Option.none => FieldVal.none)]

/-- The break test `if max_issues and idx >= max_issues` (line 75):
`max_issues` of `None` or `0` is falsy, so the break never fires. -/
def capBreak (cap : Option Nat) (idx : Nat) : Bool :=
  match cap with
  | Option.none => false
  | Option.some n => decide (n ≠ 0) && decide (n ≤ idx)

/-- The issue loop (lines 74-94): enumerate the response, break once the
index reaches a truthy cap, then skip entries flagged as pull requests. -/
def issuesLoop (cap : Option Nat) (idx : Nat) : List Issue → List Row
  | [] => []
  | i :: rest =>
    if capBreak cap idx then []
    else if i.pull_request then issuesLoop cap (idx + 1) rest
    else normIssue i :: issuesLoop cap (idx + 1) rest

/-- The function `fetch_issues` of `repo_miner.py`, applied to the
collaborator's response for `repo.get_issues(state=state)`; the state is
only forwarded to the collaborator, never re-checked by the loop. -/
def fetchIssues (issues : List Issue) (state : String) (max_issues : Option Nat) :
    Table :=
  pdDataFrame (issuesLoop max_issues 0 issues)

/-- Propagation wrapper: `fetch_commits` when the collaborator itself
raises (lines 29-33 contain no handler, so the error reaches the caller
unchanged). -/
def fetchCommitsE (resp : Except PyError (List Commit)) (cap : Option Nat) :
    Except PyError Table :=
  match resp with
  | Except.error e => Except.error e
  | Except.ok cs => fetchCommits cs cap

/-- Propagation wrapper: `fetch_issues` when the collaborator itself raises
(lines 66-70 contain no handler). -/
def fetchIssuesE (resp : Except PyError (List Issue)) (state : String)
    (cap : Option Nat) : Except PyError Table :=
  match resp with
  | Except.error e => Except.error e
  | Except.ok entries => Except.ok (fetchIssues entries state cap)

/-- Specification-side pure projection of a commit whose author is present;
`normCommit` agrees with it under that hypothesis. -/
def commitRecOf (c : Commit) : Row :=
  match c.commit.author with
  | Option.none => []
  | Option.some a =>
      [("sha", FieldVal.str c.sha),
       ("author", FieldVal.str a.name),
       ("email", FieldVal.str a.email),
       ("date", FieldVal.time a.date),
       ("message", FieldVal.str (firstLine c.commit.message))]

/-! Helper lemmas shared by the claim theorems. -/

/-- Unfolding `normCommit` when the author block is present. -/
theorem normCommit_of_some {c : Commit} {a : GitAuthor}
    (h : c.commit.author = Option.some a) :
    normCommit c = Except.ok (commitRecOf c) := by
  simp [normCommit, commitRecOf, h]

/-- When every commit carries an author, the loop succeeds and produces the
projections in order. -/
theorem commitRows_ok {cs : List Commit}
    (h : ∀ c ∈ cs, (c.commit.author).isSome) :
    commitRows cs = Except.ok (cs.map commitRecOf) := by
  induction cs with
  | nil => rfl
  | cons c cs ih =>
      obtain ⟨a, ha⟩ := Option.isSome_iff_exists.mp (h c (List.mem_cons_self c cs))
      simp [commitRows, normCommit_of_some ha,
        ih (fun d hd => h d (List.mem_cons_of_mem c hd))]

/-- A commit with no author anywhere in the processed list makes the loop
raise: no table is produced. -/
theorem commitRows_err {cs : List Commit} {c : Commit}
    (hm : c ∈ cs) (ha : c.commit.author = Option.none) :
    ∃ e, commitRows cs = Except.error e := by
  induction cs with
  | nil => cases hm
  | cons d ds ih =>
      rcases List.mem_cons.mp hm with h1 | h2
      · subst h1
        exact ⟨PyError.attributeError "name", by simp [commitRows, normCommit, ha]⟩
      · cases hn : normCommit d with
        | error e => exact ⟨e, by simp [commitRows, hn]⟩
        | ok r =>
            obtain ⟨e, he⟩ := ih h2
            exact ⟨e, by simp [commitRows, hn, he]⟩

/-- With a falsy cap (`None`), the loop is the pull-request filter followed
by projection. -/
theorem issuesLoop_none_eq (l : List Issue) :
    ∀ idx, issuesLoop Option.none idx l
      = (l.filter (fun i => !i.pull_request)).map normIssue := by
  induction l with
  | nil => intro idx; rfl
  | cons i rest ih =>
      intro idx
      by_cases hp : i.pull_request
      · simp [issuesLoop, capBreak, hp, List.filter_cons, ih]
      · simp [issuesLoop, capBreak, hp, List.filter_cons, ih]

/-- A cap of `0` is falsy in the break test, so the loop behaves exactly as
with no cap. -/
theorem issuesLoop_zero_eq (l : List Issue) :
    ∀ idx, issuesLoop (Option.some 0) idx l = issuesLoop Option.none idx l := by
  induction l with
  | nil => intro idx; rfl
  | cons i rest ih => intro idx; simp [issuesLoop, capBreak, ih]

/-- With a positive cap `c` and current index `idx ≤ c`, the loop scans
exactly the next `c - idx` entries (pull requests included in the count)
and keeps the non-pull-request ones. -/
theorem issuesLoop_some_eq {c : Nat} (hc : 0 < c) :
    ∀ (l : List Issue) (idx : Nat), idx ≤ c →
      issuesLoop (Option.some c) idx l
        = ((l.take (c - idx)).filter (fun i => !i.pull_request)).map normIssue := by
  intro l
  induction l with
  | nil => intro idx _; simp [issuesLoop]
  | cons i rest ih =>
      intro idx hle
      rcases Nat.eq_or_lt_of_le hle with heq | hlt
      · subst heq
        have hne : idx ≠ 0 := Nat.pos_iff_ne_zero.mp hc
        simp [issuesLoop, capBreak, hne, Nat.sub_self]
      · have hbreak : capBreak (Option.some c) idx = false := by
          simp [capBreak]
          omega
        have hsub : c - idx = (c - (idx + 1)) + 1 := by omega
        by_cases hp : i.pull_request
        · rw [hsub]
          simp [issuesLoop, hbreak, hp, List.take_succ_cons, List.filter_cons,
            ih (idx + 1) hlt]
        · rw [hsub]
          simp [issuesLoop, hbreak, hp, List.take_succ_cons, List.filter_cons,
            ih (idx + 1) hlt]

/-- Every row the loop produces is the projection of a non-pull-request
entry of the scanned list. -/
theorem issuesLoop_mem {cap : Option Nat} {r : Row} :
    ∀ {l : List Issue} {idx : Nat}, r ∈ issuesLoop cap idx l →
      ∃ i, i ∈ l ∧ i.pull_request = false ∧ r = normIssue i := by
  intro l
  induction l with
  | nil => intro idx h; simp [issuesLoop] at h
  | cons i rest ih =>
      intro idx h
      by_cases hb : capBreak cap idx
      · simp [issuesLoop, hb] at h
      · by_cases hp : i.pull_request
        · simp only [issuesLoop, hb, hp, if_false, if_true, Bool.false_eq_true,
            ite_false, ite_true] at h
          obtain ⟨j, hj, hjp, hr⟩ := ih h
          exact ⟨j, List.mem_cons_of_mem _ hj, hjp, hr⟩
        · simp only [issuesLoop, hb, hp, Bool.false_eq_true, ite_false,
            ite_true, if_false, if_true] at h
          rcases List.mem_cons.mp h with h1 | h2
          · exact ⟨i, List.mem_cons_self i rest, by simpa using hp, h1⟩
          · obtain ⟨j, hj, hjp, hr⟩ := ih h2
            exact ⟨j, List.mem_cons_of_mem _ hj, hjp, hr⟩

/-- Key lookup in an issue row: the `state` field. -/
theorem lookup_state_normIssue (i : Issue) :
    (normIssue i).lookup "state" = Option.some (FieldVal.str i.state) := rfl

/-- Key lookup in an issue row: the `user` field holds the structured user
object. -/
theorem lookup_user_normIssue (i : Issue) :
    (normIssue i).lookup "user" = Option.some (FieldVal.user i.user) := rfl

/-- Key lookup in an issue row: the `closed_at` field. -/
theorem lookup_closed_normIssue (i : Issue) :
    (normIssue i).lookup "closed_at"
      = Option.some
          (match i.closed_at with
           | Option.some t => FieldVal.time t
           | Option.none => FieldVal.none) := rfl

/-- Key lookup in an issue row: the `open_duration_days` field. -/
theorem lookup_duration_normIssue (i : Issue) :
    (normIssue i).lookup "open_duration_days"
      = Option.some
          (match i.closed_at with
           | Option.some t => FieldVal.int (daysBetween i.created_at t)
           | Option.none => FieldVal.none) := rfl

/-! Concrete fixtures used by counterexamples and witnesses. -/

/-- A pull-request-flagged entry, as in the repository's test fixtures. -/
def prIssueEx : Issue :=
  { id := 1, number := 101, title := "PR A", user := { login := "bob" },
    state := "closed", created_at := 0, closed_at := Option.some 86400,
    comments := 2, pull_request := true }

/-- A true (non-pull-request) open issue authored by `alice`. -/
def issueEx : Issue :=
  { id := 2, number := 102, title := "Issue A", user := { login := "alice" },
    state := "open", created_at := 0, closed_at := Option.none,
    comments := 0, pull_request := false }

/-- A true issue whose `closed_at` precedes `created_at` by one second. -/
def badDatesIssue : Issue :=
  { id := 3, number := 103, title := "weird dates", user := { login := "carol" },
    state := "closed", created_at := 1, closed_at := Option.some 0,
    comments := 0, pull_request := false }

/-- A closed true issue, used against the `open` state filter. -/
def closedTrickIssue : Issue :=
  { id := 4, number := 104, title := "closed one", user := { login := "dave" },
    state := "closed", created_at := 0, closed_at := Option.some 0,
    comments := 0, pull_request := false }

/-- A well-formed commit with a multi-line message. -/
def commitEx1 : Commit :=
  { sha := "sha1",
    commit := { author := Option.some
                  { name := "Alice", email := "a@example.com", date := 100 },
                message := "Initial commit\nDetails" } }

/-- A second well-formed commit with a single-line message. -/
def commitEx2 : Commit :=
  { sha := "sha2",
    commit := { author := Option.some
                  { name := "Bob", email := "b@example.com", date := 50 },
                message := "Bug fix" } }

/-- A malformed commit whose author block is absent. -/
def badCommit : Commit :=
  { sha := "sha3", commit := { author := Option.none, message := "orphan" } }

/-! Claim theorems. -/

/-- C1 counterexample: with cap 1 and the response `[pull request, issue]`,
which contains 1 ≥ 1 true issues, the code returns 0 rows, not 1 — the
pull request consumed the cap budget. -/
theorem issues_cap_counts_prs_cex :
    (fetchIssues [prIssueEx, issueEx] "all" (Option.some 1)).rows.length = 0
    ∧ ([prIssueEx, issueEx].filter (fun i => !i.pull_request)).length = 1 := by
  decide

/-- C1 (amended): with a positive cap `c`, `fetch_issues` stops after
scanning `c` entries of the response — pull requests do consume the cap
budget — and returns exactly the non-pull-request entries among the first
`c` entries, in order. -/
theorem issues_cap_scanned_entries (entries : List Issue) (s : String)
    (c : Nat) (hc : 0 < c) :
    (fetchIssues entries s (Option.some c)).rows
      = ((entries.take c).filter (fun i => !i.pull_request)).map normIssue := by
  show issuesLoop (Option.some c) 0 entries = _
  simpa using issuesLoop_some_eq hc entries 0 (Nat.zero_le c)

/-- C1 witness: the amended statement at cap 2 over a concrete response. -/
theorem issues_cap_scanned_entries_witness :
    (fetchIssues [prIssueEx, issueEx] "all" (Option.some 2)).rows
      = (([prIssueEx, issueEx].take 2).filter (fun i => !i.pull_request)).map
          normIssue :=
  issues_cap_scanned_entries [prIssueEx, issueEx] "all" 2 (by decide)

/-- C2: evaluated on empty inputs, both fetchers return zero rows but an
empty column list (pd.DataFrame over no records has no columns), not the
full column set the claim requires. -/
theorem empty_fetch_no_columns :
    fetchCommits [] Option.none = Except.ok { columns := [], rows := [] }
    ∧ (fetchIssues [prIssueEx] "all" Option.none).rows.length = 0
    ∧ (fetchIssues [prIssueEx] "all" Option.none).columns = []
    ∧ (([] : List String) ≠ ["sha", "author", "email", "date", "message"]) :=
  ⟨rfl, by decide, by decide, by decide⟩

/-- C3: evaluated on a concrete issue authored by `alice`, the `user` field
of the returned row holds the structured user object, not a string. -/
theorem issue_user_field_object :
    ((fetchIssues [issueEx] "all" Option.none).rows.map
        (fun r => r.lookup "user"))
      = [Option.some (FieldVal.user { login := "alice" })]
    ∧ FieldVal.isStr (FieldVal.user { login := "alice" }) = false := by
  decide

/-- C10: a cap of 0 is falsy for `fetch_issues`, which therefore behaves as
if uncapped and returns every true issue, while `fetch_commits` slices
`commits[:0]` and returns a zero-row (and zero-column) table. -/
theorem cap_zero_asymmetry (commits : List Commit) (entries : List Issue)
    (s : String) :
    fetchIssues entries s (Option.some 0) = fetchIssues entries s Option.none
    ∧ (fetchIssues entries s (Option.some 0)).rows
        = (entries.filter (fun i => !i.pull_request)).map normIssue
    ∧ fetchCommits commits (Option.some 0)
        = Except.ok { columns := [], rows := [] } := by
  refine ⟨?_, ?_, ?_⟩
  · show pdDataFrame (issuesLoop (Option.some 0) 0 entries)
        = pdDataFrame (issuesLoop Option.none 0 entries)
    rw [issuesLoop_zero_eq]
  · show (pdDataFrame (issuesLoop (Option.some 0) 0 entries)).rows = _
    rw [issuesLoop_zero_eq, issuesLoop_none_eq]
    rfl
  · rfl

/-- Characterization of `takeWhile` at the first line-break: the kept
prefix has no line-break, and the original list is either that prefix (no
line-break at all) or the prefix, a line-break, and a remainder. -/
theorem takeWhile_newline_spec (l : List Char) :
    ('\n' ∉ l.takeWhile (fun ch => ch != '\n'))
    ∧ (l = l.takeWhile (fun ch => ch != '\n')
       ∨ ∃ rest, l = l.takeWhile (fun ch => ch != '\n') ++ '\n' :: rest) := by
  induction l with
  | nil => simp
  | cons a as ih =>
      by_cases ha : a = '\n'
      · subst ha
        refine ⟨?_, Or.inr ⟨as, ?_⟩⟩
        · simp [List.takeWhile_cons]
        · simp [List.takeWhile_cons]
      · have hbn : (a != '\n') = true := by simp [ha]
        refine ⟨?_, ?_⟩
        · intro hmem
          rw [List.takeWhile_cons, if_pos hbn] at hmem
          rcases List.mem_cons.mp hmem with h1 | h2
          · exact ha h1.symm
          · exact ih.1 h2
        · rcases ih.2 with h | ⟨rest, hr⟩
          · left
            rw [List.takeWhile_cons, if_pos hbn, ← h]
          · right
            refine ⟨rest, ?_⟩
            rw [List.takeWhile_cons, if_pos hbn, List.cons_append, ← hr]

/-- C4: with a positive cap, `fetch_commits` returns exactly the first
`cap` commits of the response order, projected in order, so the row count
is `min N cap`; with no cap it returns all `N` in order. -/
theorem fetch_commits_cap_min (cs : List Commit) (cap : Nat) (hcap : 0 < cap)
    (h : ∀ c ∈ cs, (c.commit.author).isSome) :
    fetchCommits cs (Option.some cap)
      = Except.ok (pdDataFrame ((cs.take cap).map commitRecOf))
    ∧ ((cs.take cap).map commitRecOf).length = min cs.length cap
    ∧ fetchCommits cs Option.none
        = Except.ok (pdDataFrame (cs.map commitRecOf)) := by
  have htake : ∀ c ∈ cs.take cap, (c.commit.author).isSome :=
    fun c hc => h c (List.take_subset cap cs hc)
  refine ⟨?_, ?_, ?_⟩
  · simp [fetchCommits, takeCap, commitRows_ok htake]
  · simp [List.length_take, Nat.min_comm]
  · simp [fetchCommits, takeCap, commitRows_ok h]

/-- C4 witness: two commits with cap 1 and with no cap. -/
theorem fetch_commits_cap_min_witness :
    fetchCommits [commitEx1, commitEx2] (Option.some 1)
      = Except.ok (pdDataFrame (([commitEx1, commitEx2].take 1).map commitRecOf))
    ∧ (([commitEx1, commitEx2].take 1).map commitRecOf).length
        = min ([commitEx1, commitEx2] : List Commit).length 1
    ∧ fetchCommits [commitEx1, commitEx2] Option.none
        = Except.ok (pdDataFrame ([commitEx1, commitEx2].map commitRecOf)) :=
  fetch_commits_cap_min [commitEx1, commitEx2] 1 (by decide) (by decide)

/-- C5: every commit row's `message` field is a string with no line-break
that is the prefix of the source message strictly before its first
line-break (the whole message when there is none). -/
theorem commit_message_first_line (c : Commit) (r : Row)
    (h : normCommit c = Except.ok r) :
    ∃ m : String,
      r.lookup "message" = Option.some (FieldVal.str m)
      ∧ ('\n' ∉ m.data)
      ∧ (c.commit.message.data = m.data
         ∨ ∃ rest, c.commit.message.data = m.data ++ '\n' :: rest) := by
  cases ha : c.commit.author with
  | none => simp [normCommit, ha] at h
  | some a =>
      simp only [normCommit, ha] at h
      injection h with h2
      subst h2
      refine ⟨firstLine c.commit.message, ?_, ?_, ?_⟩
      · rfl
      · exact (takeWhile_newline_spec c.commit.message.data).1
      · exact (takeWhile_newline_spec c.commit.message.data).2

/-- C5 witness: the multi-line message `Initial commit\nDetails` keeps only
`Initial commit`. -/
theorem commit_message_first_line_witness :
    ∃ m : String,
      (commitRecOf commitEx1).lookup "message"
        = Option.some (FieldVal.str m)
      ∧ ('\n' ∉ m.data)
      ∧ (commitEx1.commit.message.data = m.data
         ∨ ∃ rest, commitEx1.commit.message.data = m.data ++ '\n' :: rest) :=
  commit_message_first_line commitEx1 (commitRecOf commitEx1) (by rfl)

/-- C6: with no cap, the returned rows are exactly the projections of the
non-pull-request entries, in response order: the row count equals the
number of true issues, and every row comes from an entry whose
pull-request flag is not set. -/
theorem fetch_issues_uncapped_filter (entries : List Issue) (s : String) :
    (fetchIssues entries s Option.none).rows
      = (entries.filter (fun i => !i.pull_request)).map normIssue
    ∧ (fetchIssues entries s Option.none).rows.length
      = (entries.filter (fun i => !i.pull_request)).length
    ∧ ∀ r ∈ (fetchIssues entries s Option.none).rows,
        ∃ i, i ∈ entries ∧ i.pull_request = false ∧ r = normIssue i := by
  have hrows : (fetchIssues entries s Option.none).rows
      = (entries.filter (fun i => !i.pull_request)).map normIssue :=
    issuesLoop_none_eq entries 0
  refine ⟨hrows, by rw [hrows]; simp, ?_⟩
  intro r hr
  have hr' : r ∈ issuesLoop Option.none 0 entries := hr
  exact issuesLoop_mem hr'

/-- C6 witness: a pull request interleaved with one true issue yields
exactly the true issue's row. -/
theorem fetch_issues_uncapped_filter_witness :
    (fetchIssues [prIssueEx, issueEx] "all" Option.none).rows
      = ([prIssueEx, issueEx].filter (fun i => !i.pull_request)).map normIssue
    ∧ ∃ i, i ∈ [prIssueEx, issueEx] ∧ i.pull_request = false
        ∧ normIssue issueEx = normIssue i :=
  ⟨(fetch_issues_uncapped_filter [prIssueEx, issueEx] "all").1,
   (fetch_issues_uncapped_filter [prIssueEx, issueEx] "all").2.2
     (normIssue issueEx) (by decide)⟩

/-- C7 counterexample: an issue closed one second before it was created has
`open_duration_days` equal to -1 (Python's floor-based `timedelta.days`),
while the truncated whole-day difference is 0. -/
theorem open_duration_floor_cex :
    ((fetchIssues [badDatesIssue] "all" Option.none).rows.map
        (fun r => r.lookup "open_duration_days"))
      = [Option.some (FieldVal.int (-1))]
    ∧ Int.tdiv ((0 : Int) - (1 : Int)) 86400 = 0
    ∧ FieldVal.int (-1)
        ≠ FieldVal.int (Int.tdiv ((0 : Int) - (1 : Int)) 86400) := by
  decide

/-- C7 (amended): `open_duration_days` is present (not `None`) exactly when
`closed_at` is, and when present it is the floor — toward negative
infinity — of the day difference, which agrees with truncation whenever
`closed_at` is not before `created_at`. -/
theorem open_duration_floor_days (i : Issue) :
    ((normIssue i).lookup "open_duration_days" ≠ Option.some FieldVal.none
      ↔ (normIssue i).lookup "closed_at" ≠ Option.some FieldVal.none)
    ∧ (∀ t : Int, i.closed_at = Option.some t →
        (normIssue i).lookup "open_duration_days"
          = Option.some (FieldVal.int (Int.fdiv (t - i.created_at) 86400))
        ∧ (i.created_at ≤ t →
            Int.fdiv (t - i.created_at) 86400
              = Int.tdiv (t - i.created_at) 86400))
    ∧ (i.closed_at = Option.none →
        (normIssue i).lookup "open_duration_days"
          = Option.some FieldVal.none) := by
  refine ⟨?_, ?_, ?_⟩
  · rw [lookup_duration_normIssue, lookup_closed_normIssue]
    cases i.closed_at with
    | none => simp
    | some t => simp
  · intro t ht
    refine ⟨?_, ?_⟩
    · rw [lookup_duration_normIssue, ht]
      rfl
    · intro hle
      exact Int.fdiv_eq_tdiv (by omega) (by norm_num)
  · intro h0
    rw [lookup_duration_normIssue, h0]

/-- C7 witness: a closed issue with both timestamps at 0 gives a present
duration of 0, where floor and truncation agree. -/
theorem open_duration_floor_days_witness :
    (normIssue closedTrickIssue).lookup "open_duration_days"
      = Option.some
          (FieldVal.int (Int.fdiv ((0 : Int) - closedTrickIssue.created_at) 86400))
    ∧ Int.fdiv ((0 : Int) - closedTrickIssue.created_at) 86400
        = Int.tdiv ((0 : Int) - closedTrickIssue.created_at) 86400 :=
  ⟨((open_duration_floor_days closedTrickIssue).2.1 0 (by rfl)).1,
   ((open_duration_floor_days closedTrickIssue).2.1 0 (by rfl)).2 (by decide)⟩

/-- C8 counterexample: the loop never re-checks the state, so a response
containing a closed issue under the `open` filter yields a row whose state
is `closed`. -/
theorem state_filter_trust_cex :
    ((fetchIssues [closedTrickIssue] "open" Option.none).rows.map
        (fun r => r.lookup "state"))
      = [Option.some (FieldVal.str "closed")]
    ∧ ("closed" : String) ≠ "open" := by
  decide

/-- C8 (amended): every returned row's `state` equals the requested filter
provided every entry of the collaborator's response carries that state, as
when the collaborator honors server-side filtering; the fetcher itself
performs no client-side check. -/
theorem state_filter_of_response (entries : List Issue) (s : String)
    (cap : Option Nat) (h : ∀ i ∈ entries, i.state = s) :
    ∀ r ∈ (fetchIssues entries s cap).rows,
      r.lookup "state" = Option.some (FieldVal.str s) := by
  intro r hr
  have hr' : r ∈ issuesLoop cap 0 entries := hr
  obtain ⟨i, hi, hip, rfl⟩ := issuesLoop_mem hr'
  rw [lookup_state_normIssue, h i hi]

/-- C8 witness: a response of closed issues under the `closed` filter. -/
theorem state_filter_of_response_witness :
    (normIssue closedTrickIssue).lookup "state"
      = Option.some (FieldVal.str "closed") :=
  state_filter_of_response [closedTrickIssue] "closed" Option.none (by decide)
    (normIssue closedTrickIssue) (by decide)

/-- C9: a collaborator error reaches the caller unchanged for both
fetchers, and a malformed record — a commit whose author block is absent —
makes `fetch_commits` raise instead of producing a substituted or partial
table. -/
theorem errors_propagate_unchanged :
    (∀ (e : PyError) (cap : Option Nat),
        fetchCommitsE (Except.error e) cap = Except.error e)
    ∧ (∀ (e : PyError) (s : String) (cap : Option Nat),
        fetchIssuesE (Except.error e) s cap = Except.error e)
    ∧ (∀ (cs : List Commit) (cap : Option Nat) (c : Commit),
        c ∈ takeCap cap cs → c.commit.author = Option.none →
          ∃ err, fetchCommits cs cap = Except.error err) := by
  refine ⟨fun e cap => rfl, fun e s cap => rfl, ?_⟩
  intro cs cap c hm ha
  obtain ⟨e, he⟩ := commitRows_err hm ha
  exact ⟨e, by simp [fetchCommits, he]⟩

/-- C9 witness: a not-found error and a transport error propagate
unchanged, and a commit with no author makes the fetch raise. -/
theorem errors_propagate_unchanged_witness :
    fetchCommitsE (Except.error PyError.notFoundError) Option.none
      = Except.error PyError.notFoundError
    ∧ fetchIssuesE (Except.error PyError.transportError) "all" Option.none
      = Except.error PyError.transportError
    ∧ ∃ err, fetchCommits [badCommit] Option.none = Except.error err :=
  ⟨errors_propagate_unchanged.1 PyError.notFoundError Option.none,
   errors_propagate_unchanged.2.1 PyError.transportError "all" Option.none,
   errors_propagate_unchanged.2.2 [badCommit] Option.none badCommit (by decide)
     (by rfl)⟩
